import Mathlib

/-!
Verification of the call-dispatch and storage layer of the EVM actor
(`src/actors/evm/src/interpreter/instructions/call.rs` and
`src/actors/evm/src/interpreter/system.rs`), as a shallow embedding.

Machine words (U256, bytes, actor ids, method numbers, exit codes) are
modelled as `Nat`; byte strings as `List Nat`; the persistent HAMT storage
trie as an association list with the get/set/delete semantics of a map.
Host-runtime collaborators (address resolution, code lookup, cross-actor
send, precompile dispatch, CBOR byte-string decoding) are oracle fields of
a `Runtime` structure, since their implementations live outside the two
source files.
-/

set_option autoImplicit false

/-- StorageStatus from system.rs: classification of a single storage write. -/
inductive StorageStatus where
  | Unchanged
  | Modified
  | ModifiedAgain
  | Added
  | Deleted
  deriving DecidableEq, Repr

/-- The storage trie (`Hamt<BS, U256, U256>`), modelled as an association
list of key-value pairs with map semantics. -/
abbrev Trie := List (Nat × Nat)

/-- Map lookup on the trie (`Hamt::get`). -/
def Trie.get : Trie → Nat → Option Nat
  | [], _ => none
  | (k, v) :: rest, key => if k = key then some v else Trie.get rest key

/-- Map insert-or-update on the trie (`Hamt::set`). -/
def Trie.set : Trie → Nat → Nat → Trie
  | [], key, value => [(key, value)]
  | (k, v) :: rest, key, value =>
      if k = key then (k, value) :: rest else (k, v) :: Trie.set rest key value

/-- Map removal on the trie (`Hamt::delete`). -/
def Trie.del : Trie → Nat → Trie
  | [], _ => []
  | (k, v) :: rest, key =>
      if k = key then Trie.del rest key else (k, v) :: Trie.del rest key

/-- get_storage from system.rs: look the key up in the trie. Backend
(blockstore) failures are abstracted away, as the spec leaves trie
persistence internals out of scope. -/
def get_storage (t : Trie) (key : Nat) : Option Nat :=
  Trie.get t key

/-- set_storage from system.rs: reads the previous value, classifies the
transition (`Unchanged` when the new value equals the previous one, else
`Modified`), then deletes the key when the new value is `None` (overwriting
the classification with `Deleted`) and inserts it otherwise. Returns the
updated trie together with the classification. -/
def set_storage (t : Trie) (key : Nat) (value : Option Nat) : Trie × StorageStatus :=
  let prev := Trie.get t key
  let status := if prev = value then StorageStatus.Unchanged else StorageStatus.Modified
  match value with
  | none => (Trie.del t key, StorageStatus.Deleted)
  | some v => (Trie.set t key v, status)

/-- Apply a sequence of set_storage operations to a trie, keeping only the
resulting trie. -/
def applyOps (t : Trie) (ops : List (Nat × Option Nat)) : Trie :=
  ops.foldl (fun acc op => (set_storage acc op.1 op.2).1) t

/-- ExecutionState from the interpreter: operand stack, linear memory,
call input data, the return-data register and the invoking method number. -/
structure ExecState where
  stack : List Nat
  memory : List Nat
  input_data : List Nat
  return_data : List Nat
  method : Nat
  deriving DecidableEq, Repr

/-- Pop from the operand stack. The stack implementation is outside the two
source files; popping an empty stack is modelled as yielding zero (the
interpreter loop checks operand arity before dispatching, so the claims are
settled on stacks holding all popped operands). -/
def stackPop : List Nat → Nat × List Nat
  | [] => (0, [])
  | x :: xs => (x, xs)

/-- Big-endian interpretation of a byte string (U256::from_big_endian). -/
def fromBigEndian (bs : List Nat) : Nat :=
  bs.foldl (fun acc b => acc * 256 + b) 0

/-- calldataload from call.rs: pops an index; pushes zero when the index is
strictly greater than the input length, otherwise builds a 32-byte buffer
whose first `min(index+32, len) - index` bytes are copied from the input at
the index and whose remainder stays zero, and pushes its big-endian value. -/
def calldataload (state : ExecState) : ExecState :=
  let (index, rest) := stackPop state.stack
  let input_len := state.input_data.length
  let value :=
    if input_len < index then 0
    else
      let endIdx := min (index + 32) input_len
      fromBigEndian ((state.input_data.drop index).take (endIdx - index) ++
        List.replicate (32 - (endIdx - index)) 0)
  { state with stack := value :: rest }

/-- StatusCode from the interpreter output module (output.rs is not in
src/); the constructors are the error kinds named by the spec, plus a
serialization failure for the CBOR decode step in call.rs. -/
inductive StatusCode where
  | StaticModeViolation
  | InvalidMemoryAccess
  | PrecompileFailure
  | BadAddress (msg : String)
  | ArgumentOutOfRange (msg : String)
  | InternalError (msg : String)
  | Serialization
  deriving DecidableEq, Repr

/-- Builtin actor types relevant to call dispatch; the source only matches
on Embryo and Account, every other builtin type behaves like Other. -/
inductive ActorType where
  | Embryo
  | Account
  | EVM
  | Other
  deriving DecidableEq, Repr

/-- Native address payload (fvm_shared address, not in src/): an ID
address, a namespace-tagged delegated address carrying a subaddress byte
string, or any other payload kind. -/
inductive Payload where
  | idAddr (id : Nat)
  | delegated (ns : Nat) (sub : List Nat)
  | other (tag : Nat)
  deriving DecidableEq, Repr

/-- A native address, reduced to its payload (the only part the source
inspects). -/
structure Address where
  payload : Payload
  deriving DecidableEq, Repr

/-- A 20-byte EVM-style address (its byte string). -/
structure EthAddress where
  bytes : List Nat
  deriving DecidableEq, Repr

/-- Actor id of the Ethereum address manager (fil_actors_runtime
EAM_ACTOR_ID, not in src/). -/
def EAM_ACTOR_ID : Nat := 10

/-- Modelled from the spec: EthAddress::from_id (address.rs is not in
src/) synthesizes a fallback EthAddress deterministically derived from the
numeric actor id (a 0xff-tagged 20-byte string embedding the id). -/
def EthAddress.from_id (id : Nat) : EthAddress :=
  ⟨255 :: List.replicate 11 0 ++ (List.range 8).map (fun i => id / 256 ^ (7 - i) % 256)⟩

/-- Modelled from the spec: conversion of a 256-bit stack word to an
EthAddress (address.rs is not in src/) keeps the low 20 bytes. -/
def ethAddrOfWord (w : Nat) : EthAddress :=
  ⟨(List.range 20).map (fun i => w / 256 ^ (19 - i) % 256)⟩

/-- Modelled from the spec: conversion of an EthAddress to a native
address (address.rs is not in src/) wraps the 20 bytes in a delegated
address under the EAM namespace; it always succeeds by construction. -/
def addrOfEth (e : EthAddress) : Address :=
  ⟨Payload.delegated EAM_ACTOR_ID e.bytes⟩

/-- The native destination address the dispatcher builds from the popped
destination word (the two try_into conversions in call.rs). -/
def callTargetAddr (dst : Nat) : Address :=
  addrOfEth (ethAddrOfWord dst)

/-- DelegateCallParams from the actor interface: the wire payload of a
delegate invocation. -/
structure DelegateCallParams where
  code : Nat
  input : List Nat
  readonly : Bool
  deriving DecidableEq, Repr

/-- The parameter block handed to a native send, tagged by how call.rs
serializes it: a BytesSer CBOR envelope, a DelegateCallParams record, or
raw bytes (callactor). Serialization itself is abstracted as this tagged
value. -/
inductive SendParams where
  | bytesSer (input : List Nat)
  | delegate (p : DelegateCallParams)
  | raw (input : List Nat)
  deriving DecidableEq, Repr

/-- One native cross-actor send: destination, method number, parameters
and attached value. -/
structure SendRecord where
  dest : Address
  method : Nat
  params : SendParams
  value : Nat
  deriving DecidableEq, Repr

/-- Modelled from the spec: a failed native send carries a non-zero native
exit code (ActorError, fil_actors_runtime, not in src/). -/
structure ActorError where
  code : Nat
  nonzero : code ≠ 0

/-- The host runtime collaborators used by call.rs and system.rs, as
oracle functions: address resolution, code and type lookup, the registered
predictable address, the own receiver address, the native send, bytecode
retrieval for delegate calls, precompile dispatch and the CBOR byte-string
decoder. -/
structure Runtime where
  resolve_address : Address → Option Nat
  get_actor_code_cid : Nat → Option Nat
  resolve_builtin_actor_type : Nat → Option ActorType
  lookup_address : Nat → Option Address
  receiver : Address
  send : Address → Nat → SendParams → Nat → Except ActorError (List Nat)
  get_evm_bytecode_cid : Nat → Except StatusCode Nat
  is_precompile : Nat → Bool
  call_precompile : Nat → List Nat → Except Unit (List Nat)
  deserialize_bytes : List Nat → Except Unit (List Nat)

/-- The System facade as call.rs uses it: the runtime handle plus the
sticky readonly flag. -/
structure Sys where
  rt : Runtime
  readonly : Bool

/-- Method numbers of the EVM actor interface and the reserved native
value-transfer method. METHOD_SEND is the protocol constant 0; the
InvokeContract family are protocol constants of the actor interface
(lib.rs is not in src/), modelled from the spec as distinct numbers. -/
def METHOD_SEND : Nat := 0

/-- InvokeContract method number (see METHOD_SEND). -/
def Method.InvokeContract : Nat := 2

/-- InvokeContractDelegate method number (see METHOD_SEND). -/
def Method.InvokeContractDelegate : Nat := 5

/-- InvokeContractReadOnly method number (see METHOD_SEND). -/
def Method.InvokeContractReadOnly : Nat := 6

/-- CallKind from call.rs. -/
inductive CallKind where
  | Call
  | DelegateCall
  | StaticCall
  | CallCode
  deriving DecidableEq, Repr

/-- Outcome of a call-family instruction: normal return, an error status
propagated to the interpreter, or a crash (the todo on the CallCode arm). -/
inductive CallOutcome where
  | ok
  | err (s : StatusCode)
  | crash
  deriving DecidableEq, Repr

/-- A validated non-empty region of linear memory. -/
structure MemoryRegion where
  offset : Nat
  size : Nat
  deriving DecidableEq, Repr

/-- Memory growth bound. Modelled from the spec: region resolution fails
past an allowed growth bound (memory.rs is not in src/). -/
def MEMORY_LIMIT : Nat := 2 ^ 32

/-- Grow memory with zero bytes so that it covers n bytes. -/
def growMem (m : List Nat) (n : Nat) : List Nat :=
  m ++ List.replicate (n - m.length) 0

/-- Modelled from the spec: get_memory_region (memory.rs is not in src/)
yields no region for a zero size, fails past the growth bound, and
otherwise grows memory with zeros to cover the region and returns it. -/
def get_memory_region (memory : List Nat) (offset size : Nat) :
    Except Unit (List Nat × Option MemoryRegion) :=
  if size = 0 then Except.ok (memory, none)
  else if MEMORY_LIMIT < offset + size then Except.error ()
  else Except.ok (growMem memory (offset + size), some ⟨offset, size⟩)

/-- The input byte slice denoted by a resolved region (empty for none). -/
def readRegion (memory : List Nat) : Option MemoryRegion → List Nat
  | none => []
  | some r => (memory.drop r.offset).take r.size

/-- Overwrite memory at an offset with the given bytes. -/
def writeBytes (m : List Nat) (off : Nat) (bs : List Nat) : List Nat :=
  m.take off ++ bs ++ m.drop (off + bs.length)

/-- Modelled from the spec: copy_to_memory (memory.rs is not in src/)
resolves the destination region (no-op when the requested size is zero),
writes min(dest size, available source bytes after the skip) bytes and
zero-fills the remainder of the region. -/
def copy_to_memory (memory : List Nat) (destOff destSize skip : Nat) (src : List Nat) :
    Except Unit (List Nat) :=
  match get_memory_region memory destOff destSize with
  | Except.error _ => Except.error ()
  | Except.ok (m, none) => Except.ok m
  | Except.ok (m, some r) =>
      let data := (src.drop skip).take r.size
      Except.ok (writeBytes m r.offset (data ++ List.replicate (r.size - data.length) 0))

/-- The slow path of resolve_ethereum_address (system.rs): resolve the
native address to an actor id (BadAddress when unresolvable), then look up
the registered predictable address; a delegated address under the EAM
namespace yields its subaddress when it has 20 bytes and BadAddress
otherwise, and every other outcome falls back to the address derived from
the actor id. -/
def resolveViaId (rt : Runtime) (addr : Address) : Except StatusCode EthAddress :=
  match rt.resolve_address addr with
  | none =>
      Except.error (StatusCode.BadAddress
        "non-ethereum address cannot be resolved to an ID address")
  | some actor_id =>
      match rt.lookup_address actor_id with
      | some a2 =>
          match a2.payload with
          | Payload.delegated ns2 sub2 =>
              if ns2 = EAM_ACTOR_ID then
                if sub2.length = 20 then Except.ok ⟨sub2⟩
                else Except.error (StatusCode.BadAddress "invalid ethereum address length")
              else Except.ok (EthAddress.from_id actor_id)
          | _ => Except.ok (EthAddress.from_id actor_id)
      | none => Except.ok (EthAddress.from_id actor_id)

/-- resolve_ethereum_address from system.rs: short-circuit on a delegated
address under the EAM namespace (unwrapping its 20-byte subaddress,
BadAddress when the length is wrong), otherwise resolve through the actor
id. -/
def resolve_ethereum_address (rt : Runtime) (addr : Address) : Except StatusCode EthAddress :=
  match addr.payload with
  | Payload.delegated ns sub =>
      if ns = EAM_ACTOR_ID then
        if sub.length = 20 then Except.ok ⟨sub⟩
        else Except.error (StatusCode.BadAddress "invalid ethereum address length")
      else resolveViaId rt addr
  | _ => resolveViaId rt addr

/-- The operands the call dispatcher pops, plus the remaining stack.
Call and CallCode pop seven operands; DelegateCall and StaticCall pop six
and force the value to zero. -/
structure CallOps where
  gas : Nat
  dst : Nat
  value : Nat
  inOff : Nat
  inSize : Nat
  outOff : Nat
  outSize : Nat
  rest : List Nat
  deriving DecidableEq, Repr

/-- The operand-popping phase of call (call.rs lines 121-141). -/
def popOperands (kind : CallKind) (stack : List Nat) : CallOps :=
  match kind with
  | CallKind.Call | CallKind.CallCode =>
      let (g, s1) := stackPop stack
      let (d, s2) := stackPop s1
      let (v, s3) := stackPop s2
      let (io, s4) := stackPop s3
      let (isz, s5) := stackPop s4
      let (oo, s6) := stackPop s5
      let (osz, s7) := stackPop s6
      ⟨g, d, v, io, isz, oo, osz, s7⟩
  | CallKind.DelegateCall | CallKind.StaticCall =>
      let (g, s1) := stackPop stack
      let (d, s2) := stackPop s1
      let (io, s3) := stackPop s2
      let (isz, s4) := stackPop s3
      let (oo, s5) := stackPop s4
      let (osz, s6) := stackPop s5
      ⟨g, d, 0, io, isz, oo, osz, s6⟩

/-- Registered code CID of the destination actor: resolve_address then
get_actor_code_cid (call.rs lines 170-173). -/
def callTargetCode (rt : Runtime) (dst : Nat) : Option Nat :=
  (rt.resolve_address (callTargetAddr dst)).bind rt.get_actor_code_cid

/-- Builtin type of the destination actor, when any (call.rs lines 174-176). -/
def callTargetType (rt : Runtime) (dst : Nat) : Option ActorType :=
  (callTargetCode rt dst).bind rt.resolve_builtin_actor_type

/-- Does the optional builtin type match Embryo or Account (call.rs line 188)? -/
def isAccountOrEmbryo : Option ActorType → Bool
  | some ActorType.Embryo => true
  | some ActorType.Account => true
  | _ => false

/-- Native method selection for ordinary dispatch (call.rs lines 187-200):
METHOD_SEND when the destination actor does not exist or is an embryo or
account; the read-only invocation method under readonly mode or StaticCall;
the normal invocation method otherwise. -/
def callSelectMethod (sys : Sys) (kind : CallKind) (dst : Nat) : Nat :=
  if callTargetCode sys.rt dst = none ∨ isAccountOrEmbryo (callTargetType sys.rt dst) = true then
    METHOD_SEND
  else if sys.readonly = true ∨ kind = CallKind.StaticCall then
    Method.InvokeContractReadOnly
  else
    Method.InvokeContract

/-- Tail of call (call.rs lines 255-261): store the return data, copy it
into the requested output region and push 1. The state passed in already
has its operands popped and its memory grown for the input region. -/
def finishCall (st : ExecState) (ops : CallOps) (sends : List SendRecord) (rd : List Nat) :
    ExecState × List SendRecord × CallOutcome :=
  match copy_to_memory st.memory ops.outOff ops.outSize 0 rd with
  | Except.error _ =>
      ({ st with return_data := rd }, sends, CallOutcome.err StatusCode.InvalidMemoryAccess)
  | Except.ok m2 =>
      ({ st with memory := m2, return_data := rd, stack := 1 :: st.stack },
        sends, CallOutcome.ok)

/-- Result normalization of call (call.rs lines 234-252): a failed send
pushes 0 and returns success without touching return data or memory; a
successful empty result yields empty return data; a successful non-empty
result is CBOR-decoded as a byte string (propagating a decode failure)
and becomes the return data. -/
def handleResult (sys : Sys) (st : ExecState) (ops : CallOps) (sends : List SendRecord)
    (result : Except ActorError (List Nat)) : ExecState × List SendRecord × CallOutcome :=
  match result with
  | Except.error _ => ({ st with stack := 0 :: st.stack }, sends, CallOutcome.ok)
  | Except.ok r =>
      if r = [] then finishCall st ops sends []
      else
        match sys.rt.deserialize_bytes r with
        | Except.error _ => (st, sends, CallOutcome.err StatusCode.Serialization)
        | Except.ok d => finishCall st ops sends d

/-- call from call.rs: pop the operands for the kind, enforce the static
guard, resolve the input region, dispatch to a precompile or to the native
send selected by the kind, and normalize the outcome. Alongside the final
state it returns the list of native sends performed. -/
def callFn (sys : Sys) (st : ExecState) (kind : CallKind) :
    ExecState × List SendRecord × CallOutcome :=
  let ops := popOperands kind st.stack
  if sys.readonly = true ∧ 0 < ops.value then
    ({ st with stack := ops.rest }, [], CallOutcome.err StatusCode.StaticModeViolation)
  else
    match get_memory_region st.memory ops.inOff ops.inSize with
    | Except.error _ =>
        ({ st with stack := ops.rest }, [], CallOutcome.err StatusCode.InvalidMemoryAccess)
    | Except.ok (mem1, region) =>
        let st1 := { st with stack := ops.rest, memory := mem1 }
        let input_data := readRegion mem1 region
        if sys.rt.is_precompile ops.dst = true then
          match sys.rt.call_precompile ops.dst input_data with
          | Except.error _ => (st1, [], CallOutcome.err StatusCode.PrecompileFailure)
          | Except.ok out => finishCall st1 ops [] out
        else
          match kind with
          | CallKind.Call | CallKind.StaticCall =>
              let dst_addr := callTargetAddr ops.dst
              if callTargetCode sys.rt ops.dst = none ∧ ops.value = 0 then
                finishCall st1 ops [] []
              else
                let m := callSelectMethod sys kind ops.dst
                handleResult sys st1 ops
                  [⟨dst_addr, m, SendParams.bytesSer input_data, ops.value⟩]
                  (sys.rt.send dst_addr m (SendParams.bytesSer input_data) ops.value)
          | CallKind.DelegateCall =>
              match sys.rt.get_evm_bytecode_cid ops.dst with
              | Except.error e => (st1, [], CallOutcome.err e)
              | Except.ok code =>
                  let params : DelegateCallParams := ⟨code, input_data, sys.readonly⟩
                  handleResult sys st1 ops
                    [⟨sys.rt.receiver, Method.InvokeContractDelegate,
                      SendParams.delegate params, ops.value⟩]
                    (sys.rt.send sys.rt.receiver Method.InvokeContractDelegate
                      (SendParams.delegate params) ops.value)
          | CallKind.CallCode => (st1, [], CallOutcome.crash)

/-- callactor from call.rs: reject readonly mode before popping anything,
pop the six operands, resolve the input region, reject a method number
wider than 64 bits, send, and either store the result with a 0 push or
push the native exit code of the failure. -/
def callactorFn (sys : Sys) (st : ExecState) : ExecState × List SendRecord × CallOutcome :=
  if sys.readonly = true then
    (st, [], CallOutcome.err StatusCode.StaticModeViolation)
  else
    let (_gas, s1) := stackPop st.stack
    let (dst, s2) := stackPop s1
    let (value, s3) := stackPop s2
    let (method, s4) := stackPop s3
    let (inOff, s5) := stackPop s4
    let (inSize, s6) := stackPop s5
    match get_memory_region st.memory inOff inSize with
    | Except.error _ =>
        ({ st with stack := s6 }, [], CallOutcome.err StatusCode.InvalidMemoryAccess)
    | Except.ok (mem1, region) =>
        let dst_addr := callTargetAddr dst
        if 2 ^ 64 ≤ method then
          ({ st with stack := s6, memory := mem1 }, [],
            CallOutcome.err (StatusCode.ArgumentOutOfRange
              ("bad method number: " ++ toString method)))
        else
          let input_data := readRegion mem1 region
          match sys.rt.send dst_addr method (SendParams.raw input_data) value with
          | Except.ok v =>
              ({ st with stack := 0 :: s6, memory := mem1, return_data := v },
                [⟨dst_addr, method, SendParams.raw input_data, value⟩], CallOutcome.ok)
          | Except.error ae =>
              ({ st with stack := ae.code :: s6, memory := mem1 },
                [⟨dst_addr, method, SendParams.raw input_data, value⟩], CallOutcome.ok)

/-- A concrete runtime used to instantiate theorems on closed inputs:
nothing resolves, every send succeeds with an empty result, bytecode
retrieval yields a fixed CID and no address is a precompile. -/
def demoRuntime : Runtime where
  resolve_address := fun _ => none
  get_actor_code_cid := fun _ => none
  resolve_builtin_actor_type := fun _ => none
  lookup_address := fun _ => none
  receiver := ⟨Payload.idAddr 100⟩
  send := fun _ _ _ _ => Except.ok []
  get_evm_bytecode_cid := fun _ => Except.ok 7
  is_precompile := fun _ => false
  call_precompile := fun _ _ => Except.error ()
  deserialize_bytes := fun _ => Except.error ()

/-- A concrete runtime in which every address resolves to actor id 7 whose
registered predictable address is an EAM-namespace delegated address with a
21-byte subaddress. -/
def cexRuntime : Runtime where
  resolve_address := fun _ => some 7
  get_actor_code_cid := fun _ => none
  resolve_builtin_actor_type := fun _ => none
  lookup_address := fun _ => some ⟨Payload.delegated EAM_ACTOR_ID (List.replicate 21 0)⟩
  receiver := ⟨Payload.idAddr 100⟩
  send := fun _ _ _ _ => Except.ok []
  get_evm_bytecode_cid := fun _ => Except.ok 7
  is_precompile := fun _ => false
  call_precompile := fun _ _ => Except.error ()
  deserialize_bytes := fun _ => Except.error ()

/-- A concrete runtime whose sends always fail with exit code 42. -/
def failRuntime : Runtime where
  resolve_address := fun _ => some 7
  get_actor_code_cid := fun _ => some 11
  resolve_builtin_actor_type := fun _ => some ActorType.EVM
  lookup_address := fun _ => none
  receiver := ⟨Payload.idAddr 100⟩
  send := fun _ _ _ _ => Except.error ⟨42, by decide⟩
  get_evm_bytecode_cid := fun _ => Except.ok 7
  is_precompile := fun _ => false
  call_precompile := fun _ _ => Except.error ()
  deserialize_bytes := fun _ => Except.error ()

/-- A concrete execution state: seven stack operands with a positive value
operand in third position, empty memory and buffers. -/
def demoState : ExecState := ⟨[9, 17, 3, 0, 0, 0, 0], [], [], [], 0⟩

/-- A concrete execution state whose value operand is zero. -/
def zeroValState : ExecState := ⟨[9, 17, 0, 0, 0, 0, 0], [], [], [], 0⟩

/-- A concrete execution state for callactor: six stack operands (gas 9,
destination 17, value 5, method 3, input offset 0, input size 0) and a
non-empty previous return-data register. -/
def rawCallState : ExecState := ⟨[9, 17, 5, 3, 0, 0], [], [], [7, 7], 0⟩

theorem Trie.get_set (t : Trie) (k v k2 : Nat) :
    Trie.get (Trie.set t k v) k2 = if k = k2 then some v else Trie.get t k2 := by
  induction t with
  | nil => simp [Trie.set, Trie.get]
  | cons hd tl ih =>
      obtain ⟨k0, v0⟩ := hd
      by_cases h0 : k0 = k
      · subst h0
        by_cases h2 : k0 = k2 <;> simp [Trie.set, Trie.get, h2]
      · by_cases h2 : k0 = k2
        · subst h2
          simp [Trie.set, Trie.get, h0, Ne.symm h0]
        · simp [Trie.set, Trie.get, h0, h2, ih]

theorem Trie.get_del (t : Trie) (k k2 : Nat) :
    Trie.get (Trie.del t k) k2 = if k = k2 then none else Trie.get t k2 := by
  induction t with
  | nil => simp [Trie.del, Trie.get]
  | cons hd tl ih =>
      obtain ⟨k0, v0⟩ := hd
      by_cases h0 : k0 = k
      · subst h0
        by_cases h2 : k0 = k2
        · subst h2
          simp [Trie.del, Trie.get, ih]
        · simp [Trie.del, Trie.get, h2, ih]
      · by_cases h2 : k0 = k2
        · subst h2
          simp [Trie.del, Trie.get, h0, Ne.symm h0, ih]
        · simp [Trie.del, Trie.get, h0, h2, ih]

theorem fromBigEndian_foldl (bs : List Nat) (acc : Nat) :
    bs.foldl (fun a b => a * 256 + b) acc = acc * 256 ^ bs.length + fromBigEndian bs := by
  induction bs generalizing acc with
  | nil => simp [fromBigEndian]
  | cons hd tl ih =>
      simp only [List.foldl_cons, List.length_cons, fromBigEndian, Nat.zero_mul, Nat.zero_add]
      rw [ih (acc * 256 + hd), ih hd]
      ring

theorem fromBigEndian_append_zeros (xs : List Nat) (n : Nat) :
    fromBigEndian (xs ++ List.replicate n 0) = fromBigEndian xs * 256 ^ n := by
  induction n with
  | zero => simp
  | succ m ih =>
      rw [List.replicate_succ', ← List.append_assoc]
      have h2 : fromBigEndian ((xs ++ List.replicate m 0) ++ [0]) =
          fromBigEndian (xs ++ List.replicate m 0) * 256 := by
        simp [fromBigEndian, List.foldl_append]
      rw [h2, ih]
      ring

theorem fromBigEndian_replicate_zero (n : Nat) :
    fromBigEndian (List.replicate n 0) = 0 := by
  have := fromBigEndian_append_zeros [] n
  simpa [fromBigEndian] using this

theorem set_storage_preserves_nonzero (t : Trie) (key : Nat) (value : Option Nat)
    (hv : value ≠ some 0) (ht : ∀ k, Trie.get t k ≠ some 0) :
    ∀ k, Trie.get (set_storage t key value).1 k ≠ some 0 := by
  intro k
  match value with
  | none =>
      simp only [set_storage, Trie.get_del]
      by_cases h : key = k <;> simp [h, ht k]
  | some v =>
      simp only [set_storage, Trie.get_set]
      by_cases h : key = k
      · simp [h]
        intro hv0
        exact hv (by rw [hv0])
      · simp [h, ht k]

theorem applyOps_preserves_nonzero (ops : List (Nat × Option Nat)) (t : Trie)
    (ht : ∀ k, Trie.get t k ≠ some 0) (h : ∀ op ∈ ops, op.2 ≠ some 0) :
    ∀ k, Trie.get (applyOps t ops) k ≠ some 0 := by
  induction ops generalizing t with
  | nil => simpa [applyOps] using ht
  | cons op rest ih =>
      simp only [applyOps, List.foldl_cons]
      exact ih ((set_storage t op.1 op.2).1)
        (set_storage_preserves_nonzero t op.1 op.2 (h op (by simp)) ht)
        (fun o ho => h o (by simp [ho]))

/-- C2 counterexample: on a previously absent key, set_storage with a fresh
value is classified Modified, not Added as the claim states; and a None
write on a previously absent key is classified Deleted, not Unchanged,
although the new value (conceptually zero) equals the previous one. -/
theorem set_storage_added_refuted :
    (set_storage [] 0 (some 1)).2 = StorageStatus.Modified ∧
    (set_storage [] 0 (some 1)).2 ≠ StorageStatus.Added ∧
    (set_storage [] 0 none).2 = StorageStatus.Deleted ∧
    (set_storage [] 0 none).2 ≠ StorageStatus.Unchanged := by
  decide

/-- C2 (amended): set_storage classifies a write as Deleted whenever the
new value is None, regardless of previous presence; as Unchanged when the
new value is Some v and the previous value was Some v; and as Modified
when the new value is Some v and differs from the previous state,
including the previously-absent case. Added and ModifiedAgain are never
produced. -/
theorem set_storage_classification (t : Trie) (key : Nat) (value : Option Nat) :
    ((set_storage t key value).2 =
      match value with
      | none => StorageStatus.Deleted
      | some v =>
          if Trie.get t key = some v then StorageStatus.Unchanged
          else StorageStatus.Modified) ∧
    (set_storage t key value).2 ≠ StorageStatus.Added ∧
    (set_storage t key value).2 ≠ StorageStatus.ModifiedAgain := by
  refine ⟨?_, ?_, ?_⟩ <;> cases value <;> simp [set_storage] <;> split <;> simp_all

/-- C9 counterexample: set_storage accepts a literal zero value and stores
it in the trie, where get_storage reads it back as a present zero word. -/
theorem sparse_trie_zero_refuted :
    get_storage (applyOps [] [(0, some 0)]) 0 = some 0 := by
  decide

/-- C9 (amended): starting from an empty trie, after any sequence of
set_storage operations in which a zero is always expressed as deletion
(no operation passes a literal Some 0), the trie never maps a key to the
zero word: get_storage either finds the key absent or finds a non-zero
word. -/
theorem set_storage_sparse_invariant (ops : List (Nat × Option Nat))
    (h : ∀ op ∈ ops, op.2 ≠ some 0) :
    ∀ k, get_storage (applyOps [] ops) k ≠ some 0 := by
  intro k
  have hbase : ∀ k2, Trie.get ([] : Trie) k2 ≠ some 0 := by
    intro k2
    simp [Trie.get]
  simpa [get_storage] using applyOps_preserves_nonzero ops [] hbase h k

/-- Witness for the amended C9 theorem at a concrete operation sequence. -/
theorem set_storage_sparse_invariant_witness :
    get_storage (applyOps [] [(0, some 5), (0, none), (1, some 2)]) 0 ≠ some 0 :=
  set_storage_sparse_invariant [(0, some 5), (0, none), (1, some 2)] (by decide) 0

/-- C8: calldataload pushes the zero word when the popped index is at or
beyond the input length; below the length it pushes the big-endian word of
the input bytes from the index up to min(index+32, length), zero-padded on
the right to 32 bytes; in particular at index length - 5 it pushes the
last 5 input bytes left-justified in the word. -/
theorem calldataload_semantics (input rest : List Nat) (index : Nat) :
    (input.length ≤ index →
      calldataload ⟨index :: rest, [], input, [], 0⟩ = ⟨0 :: rest, [], input, [], 0⟩) ∧
    (index < input.length →
      calldataload ⟨index :: rest, [], input, [], 0⟩ =
        ⟨fromBigEndian ((input.drop index).take (min (index + 32) input.length - index) ++
            List.replicate (32 - (min (index + 32) input.length - index)) 0) :: rest,
          [], input, [], 0⟩) ∧
    (5 ≤ input.length →
      calldataload ⟨(input.length - 5) :: rest, [], input, [], 0⟩ =
        ⟨fromBigEndian (input.drop (input.length - 5)) * 256 ^ 27 :: rest,
          [], input, [], 0⟩) := by
  refine ⟨?_, ?_, ?_⟩
  · intro hle
    rcases Nat.lt_or_ge input.length index with hlt | hge
    · simp [calldataload, stackPop, hlt]
    · have heq : index = input.length := Nat.le_antisymm hge hle
      subst heq
      simp [calldataload, stackPop, Nat.min_eq_right (Nat.le_add_right _ _),
        fromBigEndian_replicate_zero]
      decide
  · intro hlt
    simp [calldataload, stackPop, Nat.not_lt.mpr (Nat.le_of_lt hlt)]
  · intro h5
    have hnlt : ¬(input.length < input.length - 5) := by omega
    have hmin : min (input.length - 5 + 32) input.length = input.length := by omega
    have hdroplen : (input.drop (input.length - 5)).length = 5 := by
      simp [List.length_drop]
      omega
    have hsz : input.length - (input.length - 5) = 5 := by omega
    have htake : (input.drop (input.length - 5)).take 5 = input.drop (input.length - 5) :=
      List.take_of_length_le (le_of_eq hdroplen)
    simp only [calldataload, stackPop, hnlt, if_false, hmin, hsz, htake,
      show (32 : Nat) - 5 = 27 from rfl]
    rw [fromBigEndian_append_zeros]

/-- Witness for the C8 theorem at concrete inputs covering all three
conjuncts. -/
theorem calldataload_semantics_witness :
    calldataload ⟨[9, 99], [], [1, 2, 3], [], 0⟩ = ⟨0 :: [99], [], [1, 2, 3], [], 0⟩ ∧
    calldataload ⟨[1, 99], [], [1, 2, 3], [], 0⟩ =
      ⟨fromBigEndian (([1, 2, 3].drop 1).take (min (1 + 32) 3 - 1) ++
          List.replicate (32 - (min (1 + 32) 3 - 1)) 0) :: [99],
        [], [1, 2, 3], [], 0⟩ ∧
    calldataload ⟨[1, 99], [], [1, 2, 3, 4, 5, 6], [], 0⟩ =
      ⟨fromBigEndian ([1, 2, 3, 4, 5, 6].drop 1) * 256 ^ 27 :: [99],
        [], [1, 2, 3, 4, 5, 6], [], 0⟩ :=
  ⟨(calldataload_semantics [1, 2, 3] [99] 9).1 (by decide),
   (calldataload_semantics [1, 2, 3] [99] 1).2.1 (by decide),
   (calldataload_semantics [1, 2, 3, 4, 5, 6] [99] 1).2.2 (by decide)⟩

theorem finishCall_outcome_ne_smv (st : ExecState) (ops : CallOps)
    (sends : List SendRecord) (rd : List Nat) :
    (finishCall st ops sends rd).2.2 ≠ CallOutcome.err StatusCode.StaticModeViolation := by
  unfold finishCall
  split <;> simp

theorem handleResult_outcome_ne_smv (sys : Sys) (st : ExecState) (ops : CallOps)
    (sends : List SendRecord) (result : Except ActorError (List Nat)) :
    (handleResult sys st ops sends result).2.2 ≠
      CallOutcome.err StatusCode.StaticModeViolation := by
  unfold handleResult
  split
  · simp
  · split
    · apply finishCall_outcome_ne_smv
    · split
      · simp
      · apply finishCall_outcome_ne_smv

theorem finishCall_sends (st : ExecState) (ops : CallOps)
    (sends : List SendRecord) (rd : List Nat) :
    (finishCall st ops sends rd).2.1 = sends := by
  unfold finishCall
  split <;> rfl

theorem handleResult_sends (sys : Sys) (st : ExecState) (ops : CallOps)
    (sends : List SendRecord) (result : Except ActorError (List Nat)) :
    (handleResult sys st ops sends result).2.1 = sends := by
  unfold handleResult
  split
  · rfl
  · split
    · rw [finishCall_sends]
    · split
      · rfl
      · rw [finishCall_sends]

theorem callFn_no_guard_ne_smv (sys : Sys) (st : ExecState) (kind : CallKind)
    (hng : ¬(sys.readonly = true ∧ 0 < (popOperands kind st.stack).value))
    (hext : ∀ d, sys.rt.get_evm_bytecode_cid d ≠
      Except.error StatusCode.StaticModeViolation) :
    (callFn sys st kind).2.2 ≠ CallOutcome.err StatusCode.StaticModeViolation := by
  simp only [callFn]
  rw [if_neg hng]
  split
  · simp
  · split
    · split
      · simp
      · apply finishCall_outcome_ne_smv
    · split
      · split
        · apply finishCall_outcome_ne_smv
        · apply handleResult_outcome_ne_smv
      · split
        · apply finishCall_outcome_ne_smv
        · apply handleResult_outcome_ne_smv
      · split
        · rename_i e heq
          intro hc
          simp at hc
          exact hext _ (by rw [heq, hc])
        · apply handleResult_outcome_ne_smv
      · simp

/-- C1: under readonly mode, the call dispatcher fails with
StaticModeViolation exactly when the popped value operand is positive;
DelegateCall and StaticCall force the popped value operand to zero, so
they never trigger this failure; and callactor under readonly mode fails
with StaticModeViolation unconditionally, before popping any operand and
without performing any send (the state is returned untouched). -/
theorem call_static_mode_guard (sys : Sys) (st : ExecState) (kind : CallKind)
    (hro : sys.readonly = true)
    (hext : ∀ d, sys.rt.get_evm_bytecode_cid d ≠
      Except.error StatusCode.StaticModeViolation) :
    ((callFn sys st kind).2.2 = CallOutcome.err StatusCode.StaticModeViolation ↔
      0 < (popOperands kind st.stack).value) ∧
    ((kind = CallKind.DelegateCall ∨ kind = CallKind.StaticCall) →
      (popOperands kind st.stack).value = 0) ∧
    callactorFn sys st = (st, [], CallOutcome.err StatusCode.StaticModeViolation) := by
  refine ⟨?_, ?_, ?_⟩
  · by_cases hpos : 0 < (popOperands kind st.stack).value
    · have hout : (callFn sys st kind).2.2 =
          CallOutcome.err StatusCode.StaticModeViolation := by
        simp only [callFn]
        rw [if_pos ⟨hro, hpos⟩]
      simp [hout, hpos]
    · have hne := callFn_no_guard_ne_smv sys st kind (fun h => hpos h.2) hext
      simp [hne, hpos]
  · intro hk
    rcases hk with hk | hk <;> subst hk <;> simp [popOperands]
  · simp [callactorFn, hro]

/-- Witness for the C1 theorem at a concrete readonly system and state. -/
theorem call_static_mode_guard_witness :
    ((callFn ⟨demoRuntime, true⟩ demoState CallKind.Call).2.2 =
        CallOutcome.err StatusCode.StaticModeViolation ↔
      0 < (popOperands CallKind.Call demoState.stack).value) ∧
    ((CallKind.Call = CallKind.DelegateCall ∨ CallKind.Call = CallKind.StaticCall) →
      (popOperands CallKind.Call demoState.stack).value = 0) ∧
    callactorFn ⟨demoRuntime, true⟩ demoState =
      (demoState, [], CallOutcome.err StatusCode.StaticModeViolation) :=
  call_static_mode_guard ⟨demoRuntime, true⟩ demoState CallKind.Call rfl
    (fun d => by simp [demoRuntime])

/-- C5: every DelegateCall that reaches its native send targets the caller
own receiver address with the delegate-invocation method, and the outgoing
DelegateCallParams record carries the bytecode CID fetched from the
destination, the resolved input bytes, and a readonly field equal to the
caller current readonly flag; the popped value operand of a DelegateCall
is always zero. -/
theorem call_delegate_dispatch (sys : Sys) (st : ExecState) (ops : CallOps)
    (mem1 : List Nat) (region : Option MemoryRegion) (code : Nat)
    (hops : popOperands CallKind.DelegateCall st.stack = ops)
    (hpre : sys.rt.is_precompile ops.dst = false)
    (hmem : get_memory_region st.memory ops.inOff ops.inSize = Except.ok (mem1, region))
    (hcode : sys.rt.get_evm_bytecode_cid ops.dst = Except.ok code) :
    (callFn sys st CallKind.DelegateCall).2.1 =
      [⟨sys.rt.receiver, Method.InvokeContractDelegate,
        SendParams.delegate ⟨code, readRegion mem1 region, sys.readonly⟩, ops.value⟩] ∧
    ops.value = 0 := by
  have hval : (popOperands CallKind.DelegateCall st.stack).value = 0 := by
    simp [popOperands]
  subst hops
  refine ⟨?_, hval⟩
  simp [callFn, hval, hmem, hpre, hcode, handleResult_sends]

/-- Witness for the C5 theorem at a concrete system and state. -/
theorem call_delegate_dispatch_witness :
    (callFn ⟨demoRuntime, true⟩ zeroValState CallKind.DelegateCall).2.1 =
      [⟨demoRuntime.receiver, Method.InvokeContractDelegate,
        SendParams.delegate ⟨7, readRegion [] none, true⟩, 0⟩] ∧
    (⟨9, 17, 0, 0, 0, 0, 0, [0]⟩ : CallOps).value = 0 :=
  call_delegate_dispatch ⟨demoRuntime, true⟩ zeroValState ⟨9, 17, 0, 0, 0, 0, 0, [0]⟩
    [] none 7 (by decide) rfl rfl rfl

/-- C3: for Call and StaticCall, when the destination has no resolvable
actor code and the value is zero, no native send is performed and the
instruction completes as a success with empty return data (given a valid
output region); otherwise exactly one native send is performed whose
method number is callSelectMethod, which is METHOD_SEND when the actor
does not exist or is an embryo or account, the read-only invocation method
when readonly mode is on or the kind is StaticCall, and the normal
invocation method in every other case. -/
theorem call_ordinary_dispatch_selection (sys : Sys) (st : ExecState) (kind : CallKind)
    (ops : CallOps) (mem1 mem2 : List Nat) (region : Option MemoryRegion)
    (hkind : kind = CallKind.Call ∨ kind = CallKind.StaticCall)
    (hops : popOperands kind st.stack = ops)
    (hguard : ¬(sys.readonly = true ∧ 0 < ops.value))
    (hpre : sys.rt.is_precompile ops.dst = false)
    (hmem : get_memory_region st.memory ops.inOff ops.inSize = Except.ok (mem1, region)) :
    (callTargetCode sys.rt ops.dst = none ∧ ops.value = 0 →
      copy_to_memory mem1 ops.outOff ops.outSize 0 [] = Except.ok mem2 →
      callFn sys st kind =
        ({ st with stack := 1 :: ops.rest, memory := mem2, return_data := [] },
          [], CallOutcome.ok)) ∧
    (callTargetCode sys.rt ops.dst ≠ none ∨ 0 < ops.value →
      (callFn sys st kind).2.1 =
        [⟨callTargetAddr ops.dst, callSelectMethod sys kind ops.dst,
          SendParams.bytesSer (readRegion mem1 region), ops.value⟩]) ∧
    (callTargetCode sys.rt ops.dst = none ∨
        isAccountOrEmbryo (callTargetType sys.rt ops.dst) = true →
      callSelectMethod sys kind ops.dst = METHOD_SEND) ∧
    (callTargetCode sys.rt ops.dst ≠ none →
      isAccountOrEmbryo (callTargetType sys.rt ops.dst) = false →
      sys.readonly = true ∨ kind = CallKind.StaticCall →
      callSelectMethod sys kind ops.dst = Method.InvokeContractReadOnly) ∧
    (callTargetCode sys.rt ops.dst ≠ none →
      isAccountOrEmbryo (callTargetType sys.rt ops.dst) = false →
      sys.readonly = false → kind ≠ CallKind.StaticCall →
      callSelectMethod sys kind ops.dst = Method.InvokeContract) := by
  subst hops
  refine ⟨?_, ?_, ?_, ?_, ?_⟩
  · intro hna hcopy
    rcases hkind with hk | hk <;> subst hk <;>
      simp [callFn, hguard, hmem, hpre, hna.1, hna.2, finishCall, hcopy]
  · intro hsend
    have hcond : ¬(callTargetCode sys.rt (popOperands kind st.stack).dst = none ∧
        (popOperands kind st.stack).value = 0) := by
      rcases hsend with h | h
      · exact fun hc => h hc.1
      · exact fun hc => by rw [hc.2] at h; exact lt_irrefl 0 h
    rcases hkind with hk | hk <;> subst hk <;>
      simp [callFn, hguard, hmem, hpre, hcond, handleResult_sends]
  · intro h
    unfold callSelectMethod
    rw [if_pos h]
  · intro h1 h2 h3
    unfold callSelectMethod
    rw [if_neg (by simp [h1, h2]), if_pos h3]
  · intro h1 h2 h3 h4
    unfold callSelectMethod
    rw [if_neg (by simp [h1, h2]), if_neg (by simp [h3, h4])]

/-- Witness for the C3 theorem: a Call to an unresolvable destination with
zero value completes successfully with no send and empty return data. -/
theorem call_ordinary_dispatch_selection_witness :
    callFn ⟨demoRuntime, false⟩ zeroValState CallKind.Call =
      ({ zeroValState with stack := [1], memory := [], return_data := [] },
        [], CallOutcome.ok) :=
  (call_ordinary_dispatch_selection ⟨demoRuntime, false⟩ zeroValState CallKind.Call
      ⟨9, 17, 0, 0, 0, 0, 0, []⟩ [] [] none (Or.inl rfl) (by decide) (by simp) rfl rfl).1
    ⟨rfl, rfl⟩ rfl

/-- C4: when a non-precompile dispatch in call performs its native send
and the send fails, the instruction itself completes normally, pushes
exactly 0 onto the operand stack and leaves the return-data register and
memory exactly as they were after input-region resolution (no copy into
the output region and no zero-fill); 1 is never pushed on this path. -/
theorem call_revert_normalization (sys : Sys) (st : ExecState) (kind : CallKind)
    (ops : CallOps) (mem1 : List Nat) (region : Option MemoryRegion) (e : ActorError)
    (hops : popOperands kind st.stack = ops)
    (hguard : ¬(sys.readonly = true ∧ 0 < ops.value))
    (hpre : sys.rt.is_precompile ops.dst = false)
    (hmem : get_memory_region st.memory ops.inOff ops.inSize = Except.ok (mem1, region))
    (hsend : ∀ a m p v, sys.rt.send a m p v = Except.error e) :
    ((kind = CallKind.Call ∨ kind = CallKind.StaticCall) →
      (callTargetCode sys.rt ops.dst ≠ none ∨ 0 < ops.value) →
      callFn sys st kind =
        ({ st with stack := 0 :: ops.rest, memory := mem1 },
          [⟨callTargetAddr ops.dst, callSelectMethod sys kind ops.dst,
            SendParams.bytesSer (readRegion mem1 region), ops.value⟩],
          CallOutcome.ok)) ∧
    (kind = CallKind.DelegateCall →
      ∀ code, sys.rt.get_evm_bytecode_cid ops.dst = Except.ok code →
      callFn sys st kind =
        ({ st with stack := 0 :: ops.rest, memory := mem1 },
          [⟨sys.rt.receiver, Method.InvokeContractDelegate,
            SendParams.delegate ⟨code, readRegion mem1 region, sys.readonly⟩, ops.value⟩],
          CallOutcome.ok)) := by
  subst hops
  constructor
  · intro hkind hsendcond
    have hcond : ¬(callTargetCode sys.rt (popOperands kind st.stack).dst = none ∧
        (popOperands kind st.stack).value = 0) := by
      rcases hsendcond with h | h
      · exact fun hc => h hc.1
      · exact fun hc => by rw [hc.2] at h; exact lt_irrefl 0 h
    rcases hkind with hk | hk <;> subst hk <;>
      simp [callFn, hguard, hmem, hpre, hcond, handleResult, hsend]
  · intro hk code hcode
    subst hk
    simp [callFn, hguard, hmem, hpre, hcode, handleResult, hsend]

/-- Witness for the C4 theorem: a Call whose native send fails with exit
code 42 pushes 0, keeps the previous return data and does not touch the
output region. -/
theorem call_revert_normalization_witness :
    callFn ⟨failRuntime, false⟩ demoState CallKind.Call =
      ({ demoState with stack := [0], memory := [] },
        [⟨callTargetAddr 17, callSelectMethod ⟨failRuntime, false⟩ CallKind.Call 17,
          SendParams.bytesSer (readRegion [] none), 3⟩],
        CallOutcome.ok) :=
  (call_revert_normalization ⟨failRuntime, false⟩ demoState CallKind.Call
      ⟨9, 17, 3, 0, 0, 0, 0, []⟩ [] none ⟨42, by decide⟩ (by decide) (by simp) rfl rfl
      (fun a m p v => rfl)).1 (Or.inl rfl) (Or.inr (by decide))

/-- C6: callactor outside readonly mode fails with ArgumentOutOfRange when
the popped method number does not fit in 64 bits; on a successful native
send it stores the raw result bytes as return data and pushes exactly 0;
on a failed native send it pushes the native non-zero exit code while the
instruction itself completes normally. -/
theorem callactor_result_contract (sys : Sys) (st : ExecState)
    (gas dst value method inOff inSize : Nat) (rest : List Nat)
    (mem1 : List Nat) (region : Option MemoryRegion)
    (hstk : st.stack = gas :: dst :: value :: method :: inOff :: inSize :: rest)
    (hro : sys.readonly = false)
    (hmem : get_memory_region st.memory inOff inSize = Except.ok (mem1, region)) :
    (2 ^ 64 ≤ method →
      callactorFn sys st =
        ({ st with stack := rest, memory := mem1 }, [],
          CallOutcome.err (StatusCode.ArgumentOutOfRange
            ("bad method number: " ++ toString method)))) ∧
    (∀ v, method < 2 ^ 64 →
      sys.rt.send (callTargetAddr dst) method (SendParams.raw (readRegion mem1 region)) value =
        Except.ok v →
      callactorFn sys st =
        ({ st with stack := 0 :: rest, memory := mem1, return_data := v },
          [⟨callTargetAddr dst, method, SendParams.raw (readRegion mem1 region), value⟩],
          CallOutcome.ok)) ∧
    (∀ ae, method < 2 ^ 64 →
      sys.rt.send (callTargetAddr dst) method (SendParams.raw (readRegion mem1 region)) value =
        Except.error ae →
      (callactorFn sys st).1.stack = ae.code :: rest ∧ ae.code ≠ 0 ∧
        (callactorFn sys st).2.2 = CallOutcome.ok) := by
  refine ⟨?_, ?_, ?_⟩
  · intro hbig
    have hbig2 : 18446744073709551616 ≤ method := hbig
    simp [callactorFn, hro, hstk, stackPop, hmem, hbig2]
  · intro v hsmall hsend
    have hsmall2 : ¬18446744073709551616 ≤ method := Nat.not_le.mpr hsmall
    simp [callactorFn, hro, hstk, stackPop, hmem, hsmall2, hsend]
  · intro ae hsmall hsend
    have hsmall2 : ¬18446744073709551616 ≤ method := Nat.not_le.mpr hsmall
    refine ⟨?_, ae.nonzero, ?_⟩ <;>
      simp [callactorFn, hro, hstk, stackPop, hmem, hsmall2, hsend]

/-- Witness for the C6 theorem on the failing-send branch: the native exit
code 42 is pushed and the instruction completes normally. -/
theorem callactor_result_contract_witness :
    (callactorFn ⟨failRuntime, false⟩ rawCallState).1.stack = 42 :: ([] : List Nat) ∧
    (42 : Nat) ≠ 0 ∧
    (callactorFn ⟨failRuntime, false⟩ rawCallState).2.2 = CallOutcome.ok :=
  (callactor_result_contract ⟨failRuntime, false⟩ rawCallState 9 17 5 3 0 0 [] [] none
      rfl rfl rfl).2.2 ⟨42, by decide⟩ (by decide) rfl

/-- C10: when the native send of a callactor invocation fails, the
return-data register is left exactly as it was before the instruction
while the instruction completes normally. -/
theorem callactor_failure_return_data (sys : Sys) (st : ExecState)
    (gas dst value method inOff inSize : Nat) (rest : List Nat)
    (mem1 : List Nat) (region : Option MemoryRegion) (ae : ActorError)
    (hstk : st.stack = gas :: dst :: value :: method :: inOff :: inSize :: rest)
    (hro : sys.readonly = false)
    (hmem : get_memory_region st.memory inOff inSize = Except.ok (mem1, region))
    (hsmall : method < 2 ^ 64)
    (hsend : sys.rt.send (callTargetAddr dst) method
      (SendParams.raw (readRegion mem1 region)) value = Except.error ae) :
    (callactorFn sys st).1.return_data = st.return_data ∧
    (callactorFn sys st).2.2 = CallOutcome.ok := by
  have hsmall2 : ¬18446744073709551616 ≤ method := Nat.not_le.mpr hsmall
  constructor <;>
    simp [callactorFn, hro, hstk, stackPop, hmem, hsmall2, hsend]

/-- Witness for the C10 theorem: after a failed raw invocation the
return-data register still holds the previous output. -/
theorem callactor_failure_return_data_witness :
    (callactorFn ⟨failRuntime, false⟩ rawCallState).1.return_data =
      rawCallState.return_data ∧
    (callactorFn ⟨failRuntime, false⟩ rawCallState).2.2 = CallOutcome.ok :=
  callactor_failure_return_data ⟨failRuntime, false⟩ rawCallState 9 17 5 3 0 0 [] [] none
    ⟨42, by decide⟩ rfl rfl rfl (by decide) rfl

/-- C7 counterexample: with a runtime in which every address resolves to
actor id 7 but the registered predictable address is an EAM-namespace
delegated address with a 21-byte subaddress, resolve_ethereum_address
fails with BadAddress although the address does resolve to an actor id,
refuting the claim that a non-EAM address fails exactly when it cannot be
resolved. -/
theorem resolve_eth_badaddress_refuted :
    cexRuntime.resolve_address ⟨Payload.idAddr 7⟩ = some 7 ∧
    resolve_ethereum_address cexRuntime ⟨Payload.idAddr 7⟩ =
      Except.error (StatusCode.BadAddress "invalid ethereum address length") :=
  ⟨rfl, rfl⟩

/-- C7 (amended): resolve_ethereum_address short-circuits on EAM-namespace
delegated addresses, succeeding exactly on a 20-byte subaddress and
failing with BadAddress otherwise; for every other address it fails with
BadAddress when the address does not resolve to an actor id, and when it
does resolve the result is determined by the registered predictable
address: a well-formed EAM-namespace address yields its 20-byte
subaddress, a malformed EAM-namespace address fails with BadAddress, and
every other case yields the fallback address derived from the actor id. -/
theorem resolve_ethereum_address_characterization (rt : Runtime) (addr : Address) :
    (∀ ns sub, addr.payload = Payload.delegated ns sub → ns = EAM_ACTOR_ID →
      resolve_ethereum_address rt addr =
        if sub.length = 20 then Except.ok ⟨sub⟩
        else Except.error (StatusCode.BadAddress "invalid ethereum address length")) ∧
    ((∀ ns sub, addr.payload = Payload.delegated ns sub → ns ≠ EAM_ACTOR_ID) →
      (rt.resolve_address addr = none →
        resolve_ethereum_address rt addr =
          Except.error (StatusCode.BadAddress
            "non-ethereum address cannot be resolved to an ID address")) ∧
      (∀ actor_id, rt.resolve_address addr = some actor_id →
        resolve_ethereum_address rt addr =
          match rt.lookup_address actor_id with
          | some a2 =>
              match a2.payload with
              | Payload.delegated ns2 sub2 =>
                  if ns2 = EAM_ACTOR_ID then
                    if sub2.length = 20 then Except.ok ⟨sub2⟩
                    else Except.error (StatusCode.BadAddress "invalid ethereum address length")
                  else Except.ok (EthAddress.from_id actor_id)
              | _ => Except.ok (EthAddress.from_id actor_id)
          | none => Except.ok (EthAddress.from_id actor_id))) := by
  constructor
  · intro ns sub hpl hns
    unfold resolve_ethereum_address
    rw [hpl]
    dsimp only
    rw [if_pos hns]
  · intro hnot
    have hvia : resolve_ethereum_address rt addr = resolveViaId rt addr := by
      unfold resolve_ethereum_address
      cases hp : addr.payload with
      | idAddr i => rfl
      | delegated ns sub =>
          dsimp only
          rw [if_neg (hnot ns sub hp)]
      | other t => rfl
    constructor
    · intro hres
      rw [hvia]
      unfold resolveViaId
      rw [hres]
    · intro actor_id hres
      rw [hvia]
      unfold resolveViaId
      rw [hres]

/-- Witness for the amended C7 theorem on the short-circuit branch with a
well-formed 20-byte EAM subaddress. -/
theorem resolve_ethereum_address_characterization_witness :
    resolve_ethereum_address demoRuntime
        ⟨Payload.delegated EAM_ACTOR_ID (List.replicate 20 3)⟩ =
      (if (List.replicate 20 3).length = 20 then Except.ok ⟨List.replicate 20 3⟩
       else Except.error (StatusCode.BadAddress "invalid ethereum address length")) :=
  (resolve_ethereum_address_characterization demoRuntime
      ⟨Payload.delegated EAM_ACTOR_ID (List.replicate 20 3)⟩).1
    EAM_ACTOR_ID (List.replicate 20 3) rfl rfl
